import Mathlib

/-!
Verification of the platform-abstraction layer (signal handling and socket
addressing) against its specification.  The Lean definitions below are a
shallow embedding of the source, specialised to the Linux x86_64 target that
the source selects at compile time (little-endian, 64-bit words,
`sun_path` capacity 108, `sigset_t` of 16 unsigned longs).

The foreign-function boundary (sigemptyset, sigaction, kill, ...) is an
external collaborator: each wrapper takes the foreign call as an explicit
function argument returning the signed result code together with the state
the call wrote through its out-pointer, and the process-wide last-error
value is passed as an explicit argument.

Construction of native structs from `mem::uninitialized` memory is embedded
by giving each field of the native struct an `Option` type: `none` stands
for bytes that were never assigned, `some v` for a field assigned the value
`v`.  `mem::zeroed` construction produces concrete zero values.
-/

/-! ## Byte-order conversion (little-endian host)

On the little-endian targets this module is compiled for, both `to_be` and
`from_be` on machine integers are the byte swap. -/

/-- Rust `u16::to_be` on a little-endian host: swap the two bytes. -/
def u16_to_be (x : Nat) : Nat :=
  (x % 256) * 256 + (x / 256 % 256)

/-- Rust `Int::from_be` at `u16` on a little-endian host. -/
def u16_from_be (x : Nat) : Nat :=
  u16_to_be x

/-- Rust `u32::to_be` on a little-endian host: reverse the four bytes. -/
def u32_to_be (x : Nat) : Nat :=
  (x % 256) * 16777216 + (x / 256 % 256) * 65536 +
    (x / 65536 % 256) * 256 + (x / 16777216 % 256)

/-- Rust `Int::from_be` at `u32` on a little-endian host. -/
def u32_from_be (x : Nat) : Nat :=
  u32_to_be x

/-! ## Socket address data model (src/sys/socket/addr.rs) -/

def AF_UNIX : Nat := 1
def AF_INET : Nat := 2
def AF_INET6 : Nat := 10
def INADDR_ANY : Nat := 0

/-- libc `in_addr`: a single `u32` stored in network byte order. -/
structure in_addr where
  s_addr : Nat
  deriving DecidableEq

/-- libc `sockaddr_in` for Linux: family, port (network order), address and
the 8 explicit padding bytes `sin_zero`. -/
structure sockaddr_in where
  sin_family : Nat
  sin_port : Nat
  sin_addr : in_addr
  sin_zero : List Nat
  deriving DecidableEq

/-- libc `sockaddr_in6`: family, port (network order), flow info, the eight
16-bit address pieces as stored in `s6_addr` (network order each), scope id. -/
structure sockaddr_in6 where
  sin6_family : Nat
  sin6_port : Nat
  sin6_flowinfo : Nat
  sin6_addr : List Nat
  sin6_scope_id : Nat
  deriving DecidableEq

/-- std `IpAddr`: the portable value — V4 carries the four octets, V6 the
eight 16-bit segments, both in host order. -/
inductive IpAddr where
  | V4 (a b c d : Nat)
  | V6 (s0 s1 s2 s3 s4 s5 s6 s7 : Nat)
  deriving DecidableEq

/-- `InetAddr` from the source: tagged union of the two native structs. -/
inductive InetAddr where
  | V4 (sa : sockaddr_in)
  | V6 (sa : sockaddr_in6)
  deriving DecidableEq

/-- `InetAddr::new(ip, port)`: select the encoding from the portable value's
variant, convert port and address to network byte order, zero the rest of
the native struct (`.. mem::zeroed()`). -/
def InetAddr.new (ip : IpAddr) (port : Nat) : InetAddr :=
  match ip with
  | .V4 p0 p1 p2 p3 =>
      let ip := u32_to_be (((((p0 <<< 24) ||| (p1 <<< 16)) ||| (p2 <<< 8)) |||
        (p3 <<< 0)) % 4294967296)
      .V4 { sin_family := AF_INET
            sin_port := u16_to_be port
            sin_addr := { s_addr := ip }
            sin_zero := List.replicate 8 0 }
  | .V6 s0 s1 s2 s3 s4 s5 s6 s7 =>
      .V6 { sin6_family := AF_INET6
            sin6_port := u16_to_be port
            sin6_addr := [u16_to_be s0, u16_to_be s1, u16_to_be s2, u16_to_be s3,
                          u16_to_be s4, u16_to_be s5, u16_to_be s6, u16_to_be s7]
            sin6_flowinfo := 0
            sin6_scope_id := 0 }

/-- `InetAddr::ip()`: decode the network-order fields back to the portable
value.  The V4 arm mirrors `((ip >> k) as u8) & 0xff` per octet. -/
def InetAddr.ip : InetAddr → IpAddr
  | .V4 sa =>
      let ip := u32_from_be sa.sin_addr.s_addr
      .V4 (((ip >>> 24) % 256) &&& 255) (((ip >>> 16) % 256) &&& 255)
          (((ip >>> 8) % 256) &&& 255) (((ip >>> 0) % 256) &&& 255)
  | .V6 sa =>
      let a := sa.sin6_addr
      .V6 (u16_from_be (a.getD 0 0)) (u16_from_be (a.getD 1 0))
          (u16_from_be (a.getD 2 0)) (u16_from_be (a.getD 3 0))
          (u16_from_be (a.getD 4 0)) (u16_from_be (a.getD 5 0))
          (u16_from_be (a.getD 6 0)) (u16_from_be (a.getD 7 0))

/-- `InetAddr::port()`: decode the network-order port. -/
def InetAddr.port : InetAddr → Nat
  | .V6 sa => u16_from_be sa.sin6_port
  | .V4 sa => u16_from_be sa.sin_port

/-- `PartialEq for InetAddr`: V4 compares port and raw address only (family
and the `sin_zero` padding are ignored); V6 compares port, raw address,
flow info and scope id; mixed variants are unequal. -/
def InetAddr.beq : InetAddr → InetAddr → Bool
  | .V4 a, .V4 b =>
      a.sin_port == b.sin_port && a.sin_addr.s_addr == b.sin_addr.s_addr
  | .V6 a, .V6 b =>
      a.sin6_port == b.sin6_port && a.sin6_addr == b.sin6_addr &&
        a.sin6_flowinfo == b.sin6_flowinfo && a.sin6_scope_id == b.sin6_scope_id
  | _, _ => false

/-- `Hash for InetAddr`: the exact sequence of values fed to the hasher.
Two values hash identically (under every hasher) iff these sequences are
equal.  V4 feeds family, port, raw address; V6 additionally feeds the raw
segments, flow info and scope id.  Padding is never fed. -/
def InetAddr.hashTokens : InetAddr → List Nat
  | .V4 a => [a.sin_family, a.sin_port, a.sin_addr.s_addr]
  | .V6 a => a.sin6_family :: a.sin6_port ::
      (a.sin6_addr ++ [a.sin6_flowinfo, a.sin6_scope_id])

/-! ## Unix-domain addresses -/

/-- Capacity of the `sun_path` buffer in libc `sockaddr_un` on Linux. -/
def sun_path_len : Nat := 108

/-- libc `sockaddr_un`: family tag and the fixed 108-byte path buffer. -/
structure sockaddr_un where
  sun_family : Nat
  sun_path : List Nat
  deriving DecidableEq

inductive Errno where
  | ENAMETOOLONG
  | EINVAL
  | unknown (code : Nat)
  deriving DecidableEq

inductive NixError where
  | Sys (errno : Errno)
  | InvalidPath
  deriving DecidableEq

/-- Modelled from the spec: `NixError::invalid_argument()` is defined in the
crate root, which is not among the provided source files; per the spec it is
the locally raised construction-time validation error for invalid address
family combinations, carrying the platform's invalid-argument code. -/
def NixError.invalid_argument : NixError := .Sys .EINVAL

/-- `UnixAddr` from the source: newtype over `sockaddr_un`. -/
structure UnixAddr where
  inner : sockaddr_un
  deriving DecidableEq

/-- `UnixAddr::new(path)`: start from a zeroed `sockaddr_un` with the Unix
family tag, reject byte strings of length ≥ capacity with `ENAMETOOLONG`,
otherwise copy the bytes over the front of the zero-filled buffer.  The
byte string is the one the external path-conversion collaborator
(`with_nix_path`) hands to the closure. -/
def UnixAddr.new (bytes : List Nat) : Except NixError UnixAddr :=
  let ret : sockaddr_un :=
    { sun_family := AF_UNIX, sun_path := List.replicate sun_path_len 0 }
  if bytes.length ≥ ret.sun_path.length then
    .error (NixError.Sys .ENAMETOOLONG)
  else
    .ok ⟨{ ret with
           sun_path := bytes ++ List.replicate (sun_path_len - bytes.length) 0 }⟩

/-- `UnixAddr::path()`: `CStr::from_ptr` scans the buffer up to the first
zero byte; the path is that prefix. -/
def UnixAddr.path (u : UnixAddr) : List Nat :=
  u.inner.sun_path.takeWhile (fun b => b != 0)

/-- `PartialEq for UnixAddr` via `libc::strcmp` on the two buffers: the
C strings compare equal iff their prefixes up to the first zero byte agree;
bytes after the terminator never participate. -/
def strcmp_eq (a b : List Nat) : Bool :=
  a.takeWhile (fun x => x != 0) == b.takeWhile (fun x => x != 0)

def UnixAddr.beq (x y : UnixAddr) : Bool :=
  strcmp_eq x.inner.sun_path y.inner.sun_path

/-- `Hash for UnixAddr`: feeds the family tag and the decoded path (not the
raw buffer). -/
def UnixAddr.hashTokens (u : UnixAddr) : List Nat :=
  u.inner.sun_family :: u.path

/-! ## SockAddr -/

inductive SockAddr where
  | Inet (addr : InetAddr)
  | Unix (addr : UnixAddr)
  deriving DecidableEq

inductive AddressFamily where
  | Unix
  | Inet
  | Inet6
  deriving DecidableEq

def SockAddr.family : SockAddr → AddressFamily
  | .Inet (.V4 _) => .Inet
  | .Inet (.V6 _) => .Inet6
  | .Unix _ => .Unix

/-- `PartialEq for SockAddr`: dispatch on the variant, delegate. -/
def SockAddr.beq : SockAddr → SockAddr → Bool
  | .Inet a, .Inet b => a.beq b
  | .Unix a, .Unix b => a.beq b
  | _, _ => false

/-- `Hash for SockAddr`: delegate to the active variant. -/
def SockAddr.hashTokens : SockAddr → List Nat
  | .Inet a => a.hashTokens
  | .Unix a => a.hashTokens

/-! ## Textual rendering -/

/-- std `Ipv4Addr` Display: dotted decimal octets. -/
def ipv4FmtStr (a b c d : Nat) : String :=
  toString a ++ "." ++ toString b ++ "." ++ toString c ++ "." ++ toString d

/-- Dotted-quad tail used by the IPv4-compatible/mapped IPv6 forms:
`(g >> 8) as u8, g as u8, (h >> 8) as u8, h as u8`. -/
def ipv4TailStr (g h : Nat) : String :=
  ipv4FmtStr ((g >>> 8) % 256) (g % 256) ((h >>> 8) % 256) (h % 256)

/-- Lowercase hexadecimal rendering of one 16-bit segment. -/
def hexStr (n : Nat) : String :=
  String.mk (Nat.toDigits 16 n)

def joinHexStr (segs : List Nat) : String :=
  String.intercalate ":" (segs.map hexStr)

/-- First-longest run of zero segments: returns (start, length), preferring
the earliest among runs of maximal length. -/
def zeroRunOf (segs : List Nat) : Nat × Nat :=
  let st := segs.enum.foldl
    (fun (st : Nat × Nat × Nat × Nat) (p : Nat × Nat) =>
      let bestAt := st.1
      let bestLen := st.2.1
      let curAt := st.2.2.1
      let curLen := st.2.2.2
      if p.2 = 0 then
        let curAt := if curLen = 0 then p.1 else curAt
        let curLen := curLen + 1
        if curLen > bestLen then (curAt, curLen, curAt, curLen)
        else (bestAt, bestLen, curAt, curLen)
      else (bestAt, bestLen, 0, 0))
    (0, 0, 0, 0)
  (st.1, st.2.1)

/-- Modelled from the spec: the textual form of an IPv6 address is produced
by the standard library's formatter, an external collaborator not among the
provided source files.  Per the spec's examples and the standard behaviour:
the all-zero address renders "::", the loopback renders "::1", the
IPv4-compatible and IPv4-mapped forms render with a dotted-decimal tail, and
any other address renders its segments in lowercase hex separated by colons
with the first-longest run of two or more zero segments compressed to "::". -/
def ipv6FmtStr (s : List Nat) : String :=
  match s with
  | [0, 0, 0, 0, 0, 0, 0, 0] => "::"
  | [0, 0, 0, 0, 0, 0, 0, 1] => "::1"
  | [0, 0, 0, 0, 0, 0, g, h] => "::" ++ ipv4TailStr g h
  | [0, 0, 0, 0, 0, 65535, g, h] => "::ffff:" ++ ipv4TailStr g h
  | segs =>
      let run := zeroRunOf segs
      if run.2 > 1 then
        joinHexStr (segs.take run.1) ++ "::" ++ joinHexStr (segs.drop (run.1 + run.2))
      else
        joinHexStr segs

/-- std `IpAddr` Display: dispatch to the per-family formatter. -/
def IpAddr.fmtStr : IpAddr → String
  | .V4 a b c d => ipv4FmtStr a b c d
  | .V6 s0 s1 s2 s3 s4 s5 s6 s7 => ipv6FmtStr [s0, s1, s2, s3, s4, s5, s6, s7]

/-- `Display for InetAddr`: V4 renders `addr:port`, V6 renders the address
bracketed as `[addr]:port`; both go through `ip()`/`port()`. -/
def InetAddr.toStr (addr : InetAddr) : String :=
  match addr with
  | .V4 _ => addr.ip.fmtStr ++ ":" ++ toString addr.port
  | .V6 _ => "[" ++ addr.ip.fmtStr ++ "]:" ++ toString addr.port

/-- `Display for UnixAddr`: the bare decoded path. -/
def bytesToStr (bs : List Nat) : String :=
  String.mk (bs.map Char.ofNat)

def UnixAddr.toStr (u : UnixAddr) : String :=
  bytesToStr u.path

/-- `Display for SockAddr`: delegate to the active variant. -/
def SockAddr.toStr : SockAddr → String
  | .Inet a => a.toStr
  | .Unix u => u.toStr

/-! ## Multicast helper (src/sys/socket/multicast.rs) -/

structure ip_mreq where
  imr_multiaddr : in_addr
  imr_interface : in_addr
  deriving DecidableEq

/-- `ip_mreq::new(group, interface)`: the group must be V4 (else the
invalid-argument error); a present interface must be V4 (else the
invalid-argument error); an absent interface defaults to `INADDR_ANY`.  The
`in_addr` values are copied out of the address structs unchanged — they are
already in network byte order. -/
def ip_mreq.new (group : InetAddr) (interface : Option InetAddr) :
    Except NixError ip_mreq :=
  match group with
  | .V6 _ => .error NixError.invalid_argument
  | .V4 g =>
      match interface with
      | some (.V4 i) => .ok { imr_multiaddr := g.sin_addr, imr_interface := i.sin_addr }
      | some (.V6 _) => .error NixError.invalid_argument
      | none => .ok { imr_multiaddr := g.sin_addr,
                      imr_interface := { s_addr := INADDR_ANY } }

/-! ## Signal module (src/sys/signal.rs), Linux x86_64 table -/

/-- `sigset_t` on 64-bit Linux: 16 unsigned longs. -/
structure sigset_t where
  __val : List Nat
  deriving DecidableEq

/-- `SockFlag`: the `sigaction` flag bits, as a `c_ulong` bit set. -/
structure SockFlag where
  bits : Nat
  deriving DecidableEq

def SA_NOCLDSTOP : SockFlag := ⟨0x00000001⟩
def SA_NOCLDWAIT : SockFlag := ⟨0x00000002⟩
def SA_NODEFER : SockFlag := ⟨0x40000000⟩
def SA_ONSTACK : SockFlag := ⟨0x08000000⟩
def SA_RESETHAND : SockFlag := ⟨0x80000000⟩
def SA_RESTART : SockFlag := ⟨0x10000000⟩
def SA_SIGINFO : SockFlag := ⟨0x00000004⟩

/-- Handler function pointers, modelled by their address value. -/
abbrev SigHandler : Type := Nat

abbrev SigInfoHandler : Type := Nat

/-- `SIG_IGN`: `transmute(0)`. -/
def SIG_IGN : SigHandler := (0 : Nat)

/-- `SIG_IGN_INFO`: `transmute(0)`. -/
def SIG_IGN_INFO : SigInfoHandler := (0 : Nat)

/-- `SIG_DFL`: `transmute(1)`. -/
def SIG_DFL : SigHandler := (1 : Nat)

abbrev SigNum : Type := Int

/-- The native `sigaction` struct on Linux x86/x86_64/arm: handler slot,
extended-handler slot, mask, flags, and the reserved `sa_restorer` pointer.
Each field is `Option`-typed to track initialization: `none` is memory left
as `mem::uninitialized` produced it. -/
structure sigaction_t where
  sa_handler : Option SigHandler
  sa_sigaction : Option SigInfoHandler
  sa_mask : Option sigset_t
  sa_flags : Option Nat
  sa_restorer : Option Nat

/-- `mem::uninitialized::<sigaction_t>()`: no field has a determined value. -/
def sigaction_uninit : sigaction_t :=
  { sa_handler := none, sa_sigaction := none, sa_mask := none,
    sa_flags := none, sa_restorer := none }

structure SigSet where
  sigset : sigset_t
  deriving DecidableEq

structure SigAction where
  sigaction : sigaction_t

/-- `SigAction::new(handler, flags, mask)`: starts from uninitialized memory
and assigns only `sa_handler`, `sa_flags` and `sa_mask`. -/
def SigAction.new (handler : SigHandler) (flags : SockFlag) (mask : SigSet) :
    SigAction :=
  { sigaction := { sigaction_uninit with
      sa_handler := some handler
      sa_flags := some flags.bits
      sa_mask := some mask.sigset } }

/-- `SigAction::new_info(handler, flags, mask)`: starts from uninitialized
memory and assigns only `sa_sigaction`, `sa_flags` (with `SA_SIGINFO` ORed
in unconditionally) and `sa_mask`. -/
def SigAction.new_info (handler : SigInfoHandler) (flags : SockFlag)
    (mask : SigSet) : SigAction :=
  { sigaction := { sigaction_uninit with
      sa_sigaction := some handler
      sa_flags := some (flags.bits ||| SA_SIGINFO.bits)
      sa_mask := some mask.sigset } }

structure SysError where
  errno : Nat
  deriving DecidableEq

/-- `SysError::last()`: read the process-wide last-error value, passed here
explicitly. -/
def SysError.last (current_errno : Nat) : SysError := ⟨current_errno⟩

def SysError.from_errno (code : Nat) : SysError := ⟨code⟩

/-- `res as uint` on the 64-bit target. -/
def uint_of_c_int (r : Int) : Nat := (r % 2 ^ 64).toNat

inductive SigMaskHow where
  | SIG_BLOCK
  | SIG_UNBLOCK
  | SIG_SETMASK
  deriving DecidableEq

def SigMaskHow.toC : SigMaskHow → Int
  | .SIG_BLOCK => 0
  | .SIG_UNBLOCK => 1
  | .SIG_SETMASK => 2

/-- Result of a synchronous wait. -/
structure SigInfo where
  signo : Int
  errno : Int
  code : Int
  deriving DecidableEq

structure timespec where
  tv_sec : Int
  tv_nsec : Int
  deriving DecidableEq

structure Timespec where
  sec : Int
  nsec : Int
  deriving DecidableEq

/-- `SigSet::empty()`: calls `sigemptyset` on uninitialized memory and wraps
whatever the primitive wrote.  The primitive's result code is bound to `_`
in the source — it is discarded, and the return type has no error channel. -/
def SigSet.empty (ffi_sigemptyset : Unit → Int × sigset_t) : SigSet :=
  let r := ffi_sigemptyset ()
  { sigset := r.2 }

/-- `SigSet::all()`: same shape as `empty`, via `sigfillset`; the result
code is discarded. -/
def SigSet.all (ffi_sigfillset : Unit → Int × sigset_t) : SigSet :=
  let r := ffi_sigfillset ()
  { sigset := r.2 }

/-- `SigSet::add`: negative result from `sigaddset` becomes the typed error
built from the process-wide last-error value; the set holds whatever the
primitive left in it. -/
def SigSet.add (ffi_sigaddset : sigset_t → SigNum → Int × sigset_t)
    (self : SigSet) (signum : SigNum) (errno_now : Nat) :
    SigSet × Except SysError Unit :=
  let r := ffi_sigaddset self.sigset signum
  if r.1 < 0 then ({ sigset := r.2 }, .error (SysError.last errno_now))
  else ({ sigset := r.2 }, .ok ())

/-- `SigSet::remove`: as `add`, via `sigdelset`. -/
def SigSet.remove (ffi_sigdelset : sigset_t → SigNum → Int × sigset_t)
    (self : SigSet) (signum : SigNum) (errno_now : Nat) :
    SigSet × Except SysError Unit :=
  let r := ffi_sigdelset self.sigset signum
  if r.1 < 0 then ({ sigset := r.2 }, .error (SysError.last errno_now))
  else ({ sigset := r.2 }, .ok ())

/-- `signal::sigaction(signum, act)`: negative result means error from the
last-error value; success returns the previously-installed action written
through the out-pointer. -/
def sigaction (ffi_sigaction : SigNum → sigaction_t → Int × sigaction_t)
    (signum : SigNum) (act : SigAction) (errno_now : Nat) :
    Except SysError SigAction :=
  let r := ffi_sigaction signum act.sigaction
  if r.1 < 0 then .error (SysError.last errno_now)
  else .ok { sigaction := r.2 }

/-- `pthread_sigmask(how, set)`: negative result means error from the
last-error value; success returns the previous mask. -/
def pthread_sigmask (ffi_pthread_sigmask : Int → sigset_t → Int × sigset_t)
    (how : SigMaskHow) (set : SigSet) (errno_now : Nat) :
    Except SysError SigSet :=
  let r := ffi_pthread_sigmask how.toC set.sigset
  if r.1 < 0 then .error (SysError.last errno_now)
  else .ok { sigset := r.2 }

/-- `kill(pid, signum)`: negative result means error from the last-error
value. -/
def kill (ffi_kill : Int → SigNum → Int) (pid : Int) (signum : SigNum)
    (errno_now : Nat) : Except SysError Unit :=
  let res := ffi_kill pid signum
  if res < 0 then .error (SysError.last errno_now)
  else .ok ()

/-- `pthread_kill(thread, sig)`: zero is success; any nonzero result is an
error whose payload is the call's own return value (`res as uint`) — the
process-wide last-error value is never consulted. -/
def pthread_kill (ffi_pthread_kill : Nat → SigNum → Int) (thread : Nat)
    (sig : SigNum) (errno_now : Nat) : Except SysError Unit :=
  let res := ffi_pthread_kill thread sig
  if res = 0 then .ok ()
  else .error (SysError.from_errno (uint_of_c_int res))

/-- `sigwaitinfo(set)`: negative result means error from the last-error
value; success returns the info written through the out-pointer. -/
def sigwaitinfo (ffi_sigwaitinfo : sigset_t → Int × SigInfo) (set : SigSet)
    (errno_now : Nat) : Except SysError SigInfo :=
  let r := ffi_sigwaitinfo set.sigset
  if r.1 < 0 then .error (SysError.last errno_now)
  else .ok r.2

/-- `sigtimedwait(set, timeout)`: converts the wall-clock value to the
kernel timespec, then as `sigwaitinfo`. -/
def sigtimedwait (ffi_sigtimedwait : sigset_t → timespec → Int × SigInfo)
    (set : SigSet) (timeout : Timespec) (errno_now : Nat) :
    Except SysError SigInfo :=
  let ts : timespec := { tv_sec := timeout.sec, tv_nsec := timeout.nsec }
  let r := ffi_sigtimedwait set.sigset ts
  if r.1 < 0 then .error (SysError.last errno_now)
  else .ok r.2

/-- `sigpending()`: negative result means error from the last-error value;
success returns the pending set written through the out-pointer. -/
def sigpending (ffi_sigpending : Unit → Int × sigset_t) (errno_now : Nat) :
    Except SysError SigSet :=
  let r := ffi_sigpending ()
  if r.1 < 0 then .error (SysError.last errno_now)
  else .ok { sigset := r.2 }

/-- Concrete all-zero signal mask, used as a fixture input. -/
def sigset_zero : sigset_t := ⟨List.replicate 16 0⟩

/-- Concrete signal mask with every word set to 1, used as a fixture input. -/
def sigset_ones : sigset_t := ⟨List.replicate 16 1⟩

/-! # Theorems -/

/-! ## Bit-arithmetic helpers -/

theorem mul_two_pow_lor_eq_add (b : Nat) :
    ∀ (k a : Nat), a < 2 ^ k → (b * 2 ^ k) ||| a = b * 2 ^ k + a := by
  intro k
  induction k generalizing b with
  | zero =>
    intro a ha
    interval_cases a
    simp
  | succ k ih =>
    intro a ha
    have hp : (2 : Nat) ^ (k + 1) = 2 * 2 ^ k := by ring
    have hd : Nat.div2 a < 2 ^ k := by
      have := Nat.div2_val a
      omega
    have h1 : Nat.bit false (b * 2 ^ k) = b * 2 ^ (k + 1) := by
      rw [Nat.bit_val]
      simp
      ring
    calc (b * 2 ^ (k + 1)) ||| a
        = Nat.bit false (b * 2 ^ k) ||| Nat.bit (Nat.bodd a) (Nat.div2 a) := by
          rw [h1, Nat.bit_decomp]
      _ = Nat.bit (false || Nat.bodd a) ((b * 2 ^ k) ||| Nat.div2 a) := by
          rw [Nat.lor_bit]
      _ = Nat.bit (Nat.bodd a) (b * 2 ^ k + Nat.div2 a) := by
          rw [Bool.false_or, ih b (Nat.div2 a) hd]
      _ = b * 2 ^ (k + 1) + a := by
          rw [Nat.bit_val]
          have h2 : 2 * (b * 2 ^ k + Nat.div2 a) + (Nat.bodd a).toNat
              = b * 2 ^ (k + 1) + ((Nat.bodd a).toNat + 2 * Nat.div2 a) := by ring
          rw [h2, Nat.bodd_add_div2]

theorem shiftLeft_lor_eq_add (b k a : Nat) (h : a < 2 ^ k) :
    (b <<< k) ||| a = b * 2 ^ k + a := by
  rw [Nat.shiftLeft_eq]
  exact mul_two_pow_lor_eq_add b k a h

theorem u32_to_be_bytes (b0 b1 b2 b3 : Nat) (h0 : b0 < 256) (h1 : b1 < 256)
    (h2 : b2 < 256) (h3 : b3 < 256) :
    u32_to_be (b3 * 16777216 + b2 * 65536 + b1 * 256 + b0)
      = b0 * 16777216 + b1 * 65536 + b2 * 256 + b3 := by
  unfold u32_to_be
  omega

theorem u16_to_be_bytes (p0 p1 : Nat) (h0 : p0 < 256) (h1 : p1 < 256) :
    u16_to_be (p1 * 256 + p0) = p0 * 256 + p1 := by
  unfold u16_to_be
  omega

theorem u16_from_be_to_be (x : Nat) (h : x < 65536) :
    u16_from_be (u16_to_be x) = x := by
  unfold u16_from_be
  have hx : x = (x / 256) * 256 + x % 256 := by omega
  rw [hx, u16_to_be_bytes (x % 256) (x / 256) (by omega) (by omega),
      u16_to_be_bytes (x / 256) (x % 256) (by omega) (by omega)]

theorem octet_compose (a b c d : Nat) (ha : a < 256) (hb : b < 256)
    (hc : c < 256) (hd : d < 256) :
    (((a <<< 24) ||| (b <<< 16)) ||| (c <<< 8)) ||| (d <<< 0)
      = a * 16777216 + b * 65536 + c * 256 + d := by
  rw [Nat.lor_assoc, Nat.lor_assoc, Nat.shiftLeft_zero]
  rw [shiftLeft_lor_eq_add c 8 d (by omega)]
  rw [shiftLeft_lor_eq_add b 16 (c * 2 ^ 8 + d) (by
    have e1 : (2 : Nat) ^ 8 = 256 := by norm_num
    omega)]
  rw [shiftLeft_lor_eq_add a 24 (b * 2 ^ 16 + (c * 2 ^ 8 + d)) (by
    have e1 : (2 : Nat) ^ 8 = 256 := by norm_num
    have e2 : (2 : Nat) ^ 16 = 65536 := by norm_num
    have e3 : (2 : Nat) ^ 24 = 16777216 := by norm_num
    omega)]
  have e1 : (2 : Nat) ^ 8 = 256 := by norm_num
  have e2 : (2 : Nat) ^ 16 = 65536 := by norm_num
  have e3 : (2 : Nat) ^ 24 = 16777216 := by norm_num
  omega

theorem ipv4_extract (p0 p1 p2 p3 : Nat) (h0 : p0 < 256) (h1 : p1 < 256)
    (h2 : p2 < 256) (h3 : p3 < 256) :
    (((p0 * 16777216 + p1 * 65536 + p2 * 256 + p3) >>> 24) % 256) &&& 255 = p0
  ∧ (((p0 * 16777216 + p1 * 65536 + p2 * 256 + p3) >>> 16) % 256) &&& 255 = p1
  ∧ (((p0 * 16777216 + p1 * 65536 + p2 * 256 + p3) >>> 8) % 256) &&& 255 = p2
  ∧ (((p0 * 16777216 + p1 * 65536 + p2 * 256 + p3) >>> 0) % 256) &&& 255 = p3 := by
  have hand : ∀ y : Nat, y &&& 255 = y % 256 := fun y =>
    Nat.and_pow_two_sub_one_eq_mod y 8
  simp only [Nat.shiftRight_eq_div_pow, hand]
  have e0 : (2 : Nat) ^ 0 = 1 := by norm_num
  have e1 : (2 : Nat) ^ 8 = 256 := by norm_num
  have e2 : (2 : Nat) ^ 16 = 65536 := by norm_num
  have e3 : (2 : Nat) ^ 24 = 16777216 := by norm_num
  refine ⟨?_, ?_, ?_, ?_⟩ <;> omega

/-! ## C1 -/

/-- C1: the claim states that both `SigAction` constructors fully initialize
every field of the native `sigaction` struct, in particular zeroing
`sa_restorer`, before the value reaches a foreign call.  Evaluating the
constructors at a concrete input shows otherwise: both leave `sa_restorer`
carrying the bytes of `mem::uninitialized` (modelled `none`), and each also
leaves the unused handler slot undetermined. -/
theorem sigaction_constructors_leave_sa_restorer_undetermined :
    (SigAction.new SIG_DFL SA_NOCLDSTOP ⟨sigset_zero⟩).sigaction.sa_restorer = none
  ∧ (SigAction.new_info SIG_IGN_INFO SA_SIGINFO ⟨sigset_zero⟩).sigaction.sa_restorer = none
  ∧ (SigAction.new SIG_DFL SA_NOCLDSTOP ⟨sigset_zero⟩).sigaction.sa_sigaction = none
  ∧ (SigAction.new_info SIG_IGN_INFO SA_SIGINFO ⟨sigset_zero⟩).sigaction.sa_handler = none :=
  ⟨rfl, rfl, rfl, rfl⟩

/-! ## C2 -/

/-- C2 counterexample: `SigSet::empty()` and `SigSet::all()` do not surface
a failure of the native initialization primitive.  When the primitive
reports failure (result code −1) the constructor returns exactly the same
`SigSet` as on success — the result code is discarded (`let _ = ...`) and
the return type has no error channel. -/
theorem sigset_init_discards_primitive_failure :
    SigSet.empty (fun _ => (-1, sigset_zero))
        = SigSet.empty (fun _ => (0, sigset_zero))
  ∧ SigSet.empty (fun _ => (-1, sigset_zero)) = ⟨sigset_zero⟩
  ∧ SigSet.all (fun _ => (-1, sigset_ones))
        = SigSet.all (fun _ => (0, sigset_ones)) :=
  ⟨rfl, rfl, rfl⟩

/-- C2 (amended): every fallible operation of the layer — `SigSet::add`,
`SigSet::remove`, `sigaction`, `pthread_sigmask`, `kill`, `pthread_kill`,
`sigwaitinfo`, `sigtimedwait`, `sigpending` — checks the foreign result
immediately and surfaces a failing result as a typed error to the caller,
while `empty` and `all` return the primitive-written set unconditionally,
discarding the primitive's result code. -/
theorem foreign_result_checking_per_operation :
    (∀ f s n e, (f s.sigset n).1 < 0 →
        SigSet.add f s n e = (⟨(f s.sigset n).2⟩, .error (SysError.last e)))
  ∧ (∀ f s n e, 0 ≤ (f s.sigset n).1 →
        SigSet.add f s n e = (⟨(f s.sigset n).2⟩, .ok ()))
  ∧ (∀ f s n e, (f s.sigset n).1 < 0 →
        SigSet.remove f s n e = (⟨(f s.sigset n).2⟩, .error (SysError.last e)))
  ∧ (∀ f s n e, 0 ≤ (f s.sigset n).1 →
        SigSet.remove f s n e = (⟨(f s.sigset n).2⟩, .ok ()))
  ∧ (∀ f n a e, (f n a.sigaction).1 < 0 →
        sigaction f n a e = .error (SysError.last e))
  ∧ (∀ f n a e, 0 ≤ (f n a.sigaction).1 →
        sigaction f n a e = .ok ⟨(f n a.sigaction).2⟩)
  ∧ (∀ f hw st e, (f hw.toC st.sigset).1 < 0 →
        pthread_sigmask f hw st e = .error (SysError.last e))
  ∧ (∀ f hw st e, 0 ≤ (f hw.toC st.sigset).1 →
        pthread_sigmask f hw st e = .ok ⟨(f hw.toC st.sigset).2⟩)
  ∧ (∀ f p s e, f p s < 0 → kill f p s e = .error (SysError.last e))
  ∧ (∀ f p s e, 0 ≤ f p s → kill f p s e = .ok ())
  ∧ (∀ f t s e, f t s ≠ 0 →
        pthread_kill f t s e = .error (SysError.from_errno (uint_of_c_int (f t s))))
  ∧ (∀ f t s e, f t s = 0 → pthread_kill f t s e = .ok ())
  ∧ (∀ f st e, (f st.sigset).1 < 0 →
        sigwaitinfo f st e = .error (SysError.last e))
  ∧ (∀ f st e, 0 ≤ (f st.sigset).1 →
        sigwaitinfo f st e = .ok (f st.sigset).2)
  ∧ (∀ f st t e, (f st.sigset ⟨t.sec, t.nsec⟩).1 < 0 →
        sigtimedwait f st t e = .error (SysError.last e))
  ∧ (∀ f st t e, 0 ≤ (f st.sigset ⟨t.sec, t.nsec⟩).1 →
        sigtimedwait f st t e = .ok (f st.sigset ⟨t.sec, t.nsec⟩).2)
  ∧ (∀ f e, (f ()).1 < 0 → sigpending f e = .error (SysError.last e))
  ∧ (∀ f e, 0 ≤ (f ()).1 → sigpending f e = .ok ⟨(f ()).2⟩)
  ∧ (∀ f, SigSet.empty f = ⟨(f ()).2⟩)
  ∧ (∀ f, SigSet.all f = ⟨(f ()).2⟩) := by
  refine ⟨fun f s n e h => ?_, fun f s n e h => ?_, fun f s n e h => ?_,
    fun f s n e h => ?_, fun f n a e h => ?_, fun f n a e h => ?_,
    fun f hw st e h => ?_, fun f hw st e h => ?_, fun f p s e h => ?_,
    fun f p s e h => ?_, fun f t s e h => ?_, fun f t s e h => ?_,
    fun f st e h => ?_, fun f st e h => ?_, fun f st t e h => ?_,
    fun f st t e h => ?_, fun f e h => ?_, fun f e h => ?_,
    fun f => rfl, fun f => rfl⟩
  · simp only [SigSet.add]
    rw [if_pos h]
  · simp only [SigSet.add]
    rw [if_neg (by omega)]
  · simp only [SigSet.remove]
    rw [if_pos h]
  · simp only [SigSet.remove]
    rw [if_neg (by omega)]
  · simp only [sigaction]
    rw [if_pos h]
  · simp only [sigaction]
    rw [if_neg (by omega)]
  · simp only [pthread_sigmask]
    rw [if_pos h]
  · simp only [pthread_sigmask]
    rw [if_neg (by omega)]
  · simp only [kill]
    rw [if_pos h]
  · simp only [kill]
    rw [if_neg (by omega)]
  · simp only [pthread_kill]
    rw [if_neg h]
  · simp only [pthread_kill]
    rw [if_pos h]
  · simp only [sigwaitinfo]
    rw [if_pos h]
  · simp only [sigwaitinfo]
    rw [if_neg (by omega)]
  · simp only [sigtimedwait]
    rw [if_pos h]
  · simp only [sigtimedwait]
    rw [if_neg (by omega)]
  · simp only [sigpending]
    rw [if_pos h]
  · simp only [sigpending]
    rw [if_neg (by omega)]

/-- C2 witness: concrete instances of every conjunct of the amended
theorem, one failing and one succeeding foreign result per operation,
discharging each hypothesis at that input. -/
theorem foreign_result_checking_witness :
    ((-1 : Int) < 0 ∧ (0 : Int) ≤ (0 : Int) ∧ (3 : Int) ≠ 0)
  ∧ SigSet.add (fun _ _ => ((-1 : Int), sigset_zero)) ⟨sigset_zero⟩ (2 : SigNum) 22
      = (⟨sigset_zero⟩, .error (SysError.last 22))
  ∧ SigSet.add (fun _ _ => ((0 : Int), sigset_zero)) ⟨sigset_zero⟩ (2 : SigNum) 22
      = (⟨sigset_zero⟩, .ok ())
  ∧ SigSet.remove (fun _ _ => ((-1 : Int), sigset_zero)) ⟨sigset_zero⟩ (2 : SigNum) 22
      = (⟨sigset_zero⟩, .error (SysError.last 22))
  ∧ SigSet.remove (fun _ _ => ((0 : Int), sigset_zero)) ⟨sigset_zero⟩ (2 : SigNum) 22
      = (⟨sigset_zero⟩, .ok ())
  ∧ sigaction (fun _ _ => ((-1 : Int), sigaction_uninit)) (2 : SigNum)
      ⟨sigaction_uninit⟩ 22 = .error (SysError.last 22)
  ∧ sigaction (fun _ _ => ((0 : Int), sigaction_uninit)) (2 : SigNum)
      ⟨sigaction_uninit⟩ 22 = .ok ⟨sigaction_uninit⟩
  ∧ pthread_sigmask (fun _ _ => ((-1 : Int), sigset_zero)) .SIG_BLOCK
      ⟨sigset_zero⟩ 22 = .error (SysError.last 22)
  ∧ pthread_sigmask (fun _ _ => ((0 : Int), sigset_zero)) .SIG_BLOCK
      ⟨sigset_zero⟩ 22 = .ok ⟨sigset_zero⟩
  ∧ kill (fun _ _ => (-1 : Int)) 1 (2 : SigNum) 22 = .error (SysError.last 22)
  ∧ kill (fun _ _ => (0 : Int)) 1 (2 : SigNum) 22 = .ok ()
  ∧ pthread_kill (fun _ _ => (3 : Int)) 1 (2 : SigNum) 22
      = .error (SysError.from_errno (uint_of_c_int 3))
  ∧ pthread_kill (fun _ _ => (0 : Int)) 1 (2 : SigNum) 22 = .ok ()
  ∧ sigwaitinfo (fun _ => ((-1 : Int), (⟨0, 0, 0⟩ : SigInfo))) ⟨sigset_zero⟩ 22
      = .error (SysError.last 22)
  ∧ sigwaitinfo (fun _ => ((0 : Int), (⟨0, 0, 0⟩ : SigInfo))) ⟨sigset_zero⟩ 22
      = .ok ⟨0, 0, 0⟩
  ∧ sigtimedwait (fun _ _ => ((-1 : Int), (⟨0, 0, 0⟩ : SigInfo))) ⟨sigset_zero⟩
      ⟨0, 0⟩ 22 = .error (SysError.last 22)
  ∧ sigtimedwait (fun _ _ => ((0 : Int), (⟨0, 0, 0⟩ : SigInfo))) ⟨sigset_zero⟩
      ⟨0, 0⟩ 22 = .ok ⟨0, 0, 0⟩
  ∧ sigpending (fun _ => ((-1 : Int), sigset_zero)) 22 = .error (SysError.last 22)
  ∧ sigpending (fun _ => ((0 : Int), sigset_zero)) 22 = .ok ⟨sigset_zero⟩ := by
  have T := foreign_result_checking_per_operation
  exact ⟨⟨by decide, by decide, by decide⟩,
    T.1 _ _ _ _ (by decide),
    T.2.1 _ _ _ _ (by decide),
    T.2.2.1 _ _ _ _ (by decide),
    T.2.2.2.1 _ _ _ _ (by decide),
    T.2.2.2.2.1 _ _ _ _ (by decide),
    T.2.2.2.2.2.1 _ _ _ _ (by decide),
    T.2.2.2.2.2.2.1 _ _ _ _ (by decide),
    T.2.2.2.2.2.2.2.1 _ _ _ _ (by decide),
    T.2.2.2.2.2.2.2.2.1 _ _ _ _ (by decide),
    T.2.2.2.2.2.2.2.2.2.1 _ _ _ _ (by decide),
    T.2.2.2.2.2.2.2.2.2.2.1 _ _ _ _ (by decide),
    T.2.2.2.2.2.2.2.2.2.2.2.1 _ _ _ _ (by decide),
    T.2.2.2.2.2.2.2.2.2.2.2.2.1 _ _ _ (by decide),
    T.2.2.2.2.2.2.2.2.2.2.2.2.2.1 _ _ _ (by decide),
    T.2.2.2.2.2.2.2.2.2.2.2.2.2.2.1 _ _ _ _ (by decide),
    T.2.2.2.2.2.2.2.2.2.2.2.2.2.2.2.1 _ _ _ _ (by decide),
    T.2.2.2.2.2.2.2.2.2.2.2.2.2.2.2.2.1 _ _ (by decide),
    T.2.2.2.2.2.2.2.2.2.2.2.2.2.2.2.2.2.1 _ _ (by decide)⟩

/-! ## C3 -/

/-- C3: encoding any IPv4 address (four octets) or IPv6 address (eight
16-bit segments) together with any port 0–65535 through `InetAddr::new`
and decoding through `ip()`/`port()` returns exactly the original portable
IP value and port, across the whole range including the boundary values. -/
theorem inet_addr_round_trip :
    ∀ (p0 p1 p2 p3 s0 s1 s2 s3 s4 s5 s6 s7 port : Nat),
      p0 < 256 → p1 < 256 → p2 < 256 → p3 < 256 →
      s0 < 65536 → s1 < 65536 → s2 < 65536 → s3 < 65536 →
      s4 < 65536 → s5 < 65536 → s6 < 65536 → s7 < 65536 → port < 65536 →
      (InetAddr.new (.V4 p0 p1 p2 p3) port).ip = .V4 p0 p1 p2 p3
    ∧ (InetAddr.new (.V4 p0 p1 p2 p3) port).port = port
    ∧ (InetAddr.new (.V6 s0 s1 s2 s3 s4 s5 s6 s7) port).ip
        = .V6 s0 s1 s2 s3 s4 s5 s6 s7
    ∧ (InetAddr.new (.V6 s0 s1 s2 s3 s4 s5 s6 s7) port).port = port := by
  intro p0 p1 p2 p3 s0 s1 s2 s3 s4 s5 s6 s7 port
  intro h0 h1 h2 h3 hs0 hs1 hs2 hs3 hs4 hs5 hs6 hs7 hp
  have hcomp := octet_compose p0 p1 p2 p3 h0 h1 h2 h3
  have hext := ipv4_extract p0 p1 p2 p3 h0 h1 h2 h3
  refine ⟨?_, ?_, ?_, ?_⟩
  · simp only [InetAddr.new, InetAddr.ip, u32_from_be, hcomp]
    rw [Nat.mod_eq_of_lt
      (show p0 * 16777216 + p1 * 65536 + p2 * 256 + p3 < 4294967296 by omega)]
    rw [u32_to_be_bytes p3 p2 p1 p0 h3 h2 h1 h0]
    rw [u32_to_be_bytes p0 p1 p2 p3 h0 h1 h2 h3]
    rw [hext.1, hext.2.1, hext.2.2.1, hext.2.2.2]
  · simp only [InetAddr.new, InetAddr.port]
    exact u16_from_be_to_be port hp
  · simp only [InetAddr.new, InetAddr.ip, List.getD_cons_zero,
      List.getD_cons_succ]
    rw [u16_from_be_to_be s0 hs0, u16_from_be_to_be s1 hs1,
      u16_from_be_to_be s2 hs2, u16_from_be_to_be s3 hs3,
      u16_from_be_to_be s4 hs4, u16_from_be_to_be s5 hs5,
      u16_from_be_to_be s6 hs6, u16_from_be_to_be s7 hs7]
  · simp only [InetAddr.new, InetAddr.port]
    exact u16_from_be_to_be port hp

/-- C3 witness: the round trip evaluated at the boundary values
255.255.255.255 with port 65535 and ::1 with the same port. -/
theorem inet_addr_round_trip_witness :
    (255 : Nat) < 256 ∧ (65535 : Nat) < 65536
  ∧ ((InetAddr.new (.V4 255 255 255 255) 65535).ip = .V4 255 255 255 255
     ∧ (InetAddr.new (.V4 255 255 255 255) 65535).port = 65535
     ∧ (InetAddr.new (.V6 0 0 0 0 0 0 0 1) 65535).ip = .V6 0 0 0 0 0 0 0 1
     ∧ (InetAddr.new (.V6 0 0 0 0 0 0 0 1) 65535).port = 65535) :=
  ⟨by decide, by decide,
   inet_addr_round_trip 255 255 255 255 0 0 0 0 0 0 0 1 65535
     (by decide) (by decide) (by decide) (by decide) (by decide) (by decide)
     (by decide) (by decide) (by decide) (by decide) (by decide) (by decide)
     (by decide)⟩

/-! ## C4 and C10 helper -/

theorem takeWhile_bne_append_zero (p rest : List Nat) (h : 0 ∉ p) :
    (p ++ 0 :: rest).takeWhile (fun x => x != 0) = p := by
  induction p with
  | nil => simp
  | cons a t ih =>
    have ha : a ≠ 0 := fun hz => h (hz ▸ List.mem_cons_self a t)
    have ht : 0 ∉ t := fun hm => h (List.mem_cons_of_mem a hm)
    simp only [List.cons_append, List.takeWhile_cons]
    simp [ha, ih ht]

/-! ## C4 -/

/-- C4: a path whose byte length is at least the `sun_path` capacity is
rejected with `ENAMETOOLONG` and no address value is constructed, while a
path of length below capacity − 1 (the spec's round-trip range) is accepted
and `path()` returns exactly the original bytes.  The byte strings come
from the external path-conversion collaborator and therefore contain no
zero byte. -/
theorem unix_addr_encode_decode :
    ∀ (bytes : List Nat),
      (bytes.length ≥ sun_path_len →
        UnixAddr.new bytes = .error (NixError.Sys .ENAMETOOLONG))
    ∧ (0 ∉ bytes → bytes.length < sun_path_len - 1 →
        (UnixAddr.new bytes).map UnixAddr.path = .ok bytes) := by
  intro bytes
  constructor
  · intro hlen
    simp only [UnixAddr.new]
    rw [if_pos (by simpa using hlen)]
  · intro hz hlen
    have hlen108 : bytes.length < 107 := by
      simpa [sun_path_len] using hlen
    simp only [UnixAddr.new]
    rw [if_neg (by simp [sun_path_len]; omega)]
    simp only [Except.map, UnixAddr.path]
    have hk : sun_path_len - bytes.length = (sun_path_len - bytes.length - 1) + 1 := by
      simp only [sun_path_len]
      omega
    rw [hk, List.replicate_succ]
    rw [takeWhile_bne_append_zero bytes _ hz]

/-- C4 witness: the short path "/tmp" round-trips; a 108-byte path is
rejected with the name-too-long error. -/
theorem unix_addr_encode_decode_witness :
    (0 : Nat) ∉ ([47, 116, 109, 112] : List Nat)
  ∧ ([47, 116, 109, 112] : List Nat).length < sun_path_len - 1
  ∧ (UnixAddr.new [47, 116, 109, 112]).map UnixAddr.path
      = .ok [47, 116, 109, 112]
  ∧ (List.replicate 108 (65 : Nat)).length ≥ sun_path_len
  ∧ UnixAddr.new (List.replicate 108 65) = .error (NixError.Sys .ENAMETOOLONG) :=
  ⟨by decide, by decide,
   (unix_addr_encode_decode [47, 116, 109, 112]).2 (by decide) (by decide),
   by decide,
   (unix_addr_encode_decode (List.replicate 108 65)).1 (by decide)⟩

/-! ## C10 -/

/-- C10: the boundary length capacity − 1 (107 bytes) is accepted — the
length check rejects only lengths ≥ capacity — and `path()` still returns
the original bytes, the zero-filled buffer supplying the terminator in its
final byte. -/
theorem unix_addr_boundary_length_round_trip :
    ∀ (bytes : List Nat), 0 ∉ bytes → bytes.length = sun_path_len - 1 →
      (UnixAddr.new bytes).map UnixAddr.path = .ok bytes := by
  intro bytes hz hlen
  have hlen107 : bytes.length = 107 := by
    simpa [sun_path_len] using hlen
  simp only [UnixAddr.new]
  rw [if_neg (by simp [sun_path_len]; omega)]
  simp only [Except.map, UnixAddr.path]
  have hk : sun_path_len - bytes.length = (sun_path_len - bytes.length - 1) + 1 := by
    simp only [sun_path_len]
    omega
  rw [hk, List.replicate_succ]
  rw [takeWhile_bne_append_zero bytes _ hz]

/-- C10 witness: a concrete 107-byte zero-free path is accepted and decoded
back exactly. -/
theorem unix_addr_boundary_witness :
    (0 : Nat) ∉ List.replicate 107 (1 : Nat)
  ∧ (List.replicate 107 (1 : Nat)).length = sun_path_len - 1
  ∧ (UnixAddr.new (List.replicate 107 1)).map UnixAddr.path
      = .ok (List.replicate 107 1) :=
  ⟨by decide, by decide,
   unix_addr_boundary_length_round_trip (List.replicate 107 1)
     (by decide) (by decide)⟩

/-! ## C5 -/

/-- C5: `new_info` unconditionally ORs the extended-info flag into
`sa_flags`: the stored flag word is the caller's flags ORed with
`SA_SIGINFO`, and that word always has the `SA_SIGINFO` bit (bit 2 on this
platform) set, whatever the caller passed. -/
theorem new_info_forces_extended_info_flag :
    ∀ (handler : SigInfoHandler) (flags : SockFlag) (mask : SigSet),
      (SigAction.new_info handler flags mask).sigaction.sa_flags
          = some (flags.bits ||| SA_SIGINFO.bits)
    ∧ Nat.testBit (flags.bits ||| SA_SIGINFO.bits) 2 = true := by
  intro handler flags mask
  refine ⟨rfl, ?_⟩
  have h4 : Nat.testBit SA_SIGINFO.bits 2 = true := by decide
  rw [Nat.testBit_lor, h4, Bool.or_true]

/-! ## C6 -/

/-- C6: `pthread_kill` succeeds exactly when the foreign call returns 0 and
otherwise reports the call's own return value as the error payload,
independent of the process-wide last-error value; every other signal
control operation turns a negative foreign result into an error built from
the process-wide last-error value. -/
theorem error_payload_source_per_operation :
    (∀ f t s e, pthread_kill f t s e =
        if f t s = 0 then .ok ()
        else .error (SysError.from_errno (uint_of_c_int (f t s))))
  ∧ (∀ f t s e₁ e₂, pthread_kill f t s e₁ = pthread_kill f t s e₂)
  ∧ (∀ f p s e, kill f p s e =
        if f p s < 0 then .error (SysError.last e) else .ok ())
  ∧ (∀ f n a e, sigaction f n a e =
        if (f n a.sigaction).1 < 0 then .error (SysError.last e)
        else .ok ⟨(f n a.sigaction).2⟩)
  ∧ (∀ f hw st e, pthread_sigmask f hw st e =
        if (f hw.toC st.sigset).1 < 0 then .error (SysError.last e)
        else .ok ⟨(f hw.toC st.sigset).2⟩)
  ∧ (∀ f st e, sigwaitinfo f st e =
        if (f st.sigset).1 < 0 then .error (SysError.last e)
        else .ok (f st.sigset).2)
  ∧ (∀ f st t e, sigtimedwait f st t e =
        if (f st.sigset { tv_sec := t.sec, tv_nsec := t.nsec }).1 < 0
        then .error (SysError.last e)
        else .ok (f st.sigset { tv_sec := t.sec, tv_nsec := t.nsec }).2)
  ∧ (∀ f e, sigpending f e =
        if (f ()).1 < 0 then .error (SysError.last e)
        else .ok ⟨(f ()).2⟩) :=
  ⟨fun f t s e => rfl, fun f t s e₁ e₂ => rfl, fun f p s e => rfl,
   fun f n a e => rfl, fun f hw st e => rfl, fun f st e => rfl,
   fun f st t e => rfl, fun f e => rfl⟩

/-! ## C7 -/

theorem InetAddr.beq_refl (x : InetAddr) : x.beq x = true := by
  cases x <;> simp [InetAddr.beq]

/-- C7: socket-address values built from identical logical inputs are equal
and feed identical data to the hasher; values that differ only in native
padding — the `sin_zero` bytes of an IPv4 struct, or the Unix buffer bytes
after the path terminator — are still equal and hash identically. -/
theorem sock_addr_eq_hash_ignore_padding :
    ∀ (ip : IpAddr) (port fam addr : Nat) (z1 z2 p s1 s2 : List Nat),
      (SockAddr.beq (.Inet (InetAddr.new ip port))
          (.Inet (InetAddr.new ip port)) = true
       ∧ SockAddr.hashTokens (.Inet (InetAddr.new ip port))
           = SockAddr.hashTokens (.Inet (InetAddr.new ip port)))
    ∧ (SockAddr.beq (.Inet (.V4 ⟨fam, port, ⟨addr⟩, z1⟩))
          (.Inet (.V4 ⟨fam, port, ⟨addr⟩, z2⟩)) = true
       ∧ SockAddr.hashTokens (.Inet (.V4 ⟨fam, port, ⟨addr⟩, z1⟩))
           = SockAddr.hashTokens (.Inet (.V4 ⟨fam, port, ⟨addr⟩, z2⟩)))
    ∧ (0 ∉ p →
        SockAddr.beq (.Unix ⟨⟨fam, p ++ 0 :: s1⟩⟩)
            (.Unix ⟨⟨fam, p ++ 0 :: s2⟩⟩) = true
        ∧ SockAddr.hashTokens (.Unix ⟨⟨fam, p ++ 0 :: s1⟩⟩)
            = SockAddr.hashTokens (.Unix ⟨⟨fam, p ++ 0 :: s2⟩⟩)) := by
  intro ip port fam addr z1 z2 p s1 s2
  refine ⟨⟨?_, rfl⟩, ⟨?_, rfl⟩, fun hz => ⟨?_, ?_⟩⟩
  · simp only [SockAddr.beq]
    exact InetAddr.beq_refl _
  · simp [SockAddr.beq, InetAddr.beq]
  · simp only [SockAddr.beq, UnixAddr.beq, strcmp_eq,
      takeWhile_bne_append_zero _ _ hz, beq_self_eq_true]
  · simp only [SockAddr.hashTokens, UnixAddr.hashTokens, UnixAddr.path,
      takeWhile_bne_append_zero _ _ hz]

/-- C7 witness: two Unix addresses sharing the path bytes "/a" but
differing in the buffer contents after the terminator are equal and feed
the hasher identically. -/
theorem sock_addr_eq_hash_padding_witness :
    (0 : Nat) ∉ ([47, 97] : List Nat)
  ∧ (SockAddr.beq (.Unix ⟨⟨1, [47, 97] ++ 0 :: [7]⟩⟩)
        (.Unix ⟨⟨1, [47, 97] ++ 0 :: []⟩⟩) = true
     ∧ SockAddr.hashTokens (.Unix ⟨⟨1, [47, 97] ++ 0 :: [7]⟩⟩)
         = SockAddr.hashTokens (.Unix ⟨⟨1, [47, 97] ++ 0 :: []⟩⟩)) :=
  ⟨by decide,
   (sock_addr_eq_hash_ignore_padding (.V4 1 2 3 4) 80 1 5 [0] [9]
     [47, 97] [7] []).2.2 (by decide)⟩

/-! ## C9 -/

/-- C9: rendering dispatches on the variant — IPv4 renders `addr:port`,
IPv6 renders the address bracketed as `[addr]:port`, Unix renders the bare
path; in particular 1.2.3.4:80 renders "1.2.3.4:80", ::1 on port 443
renders "[::1]:443", and the Unix address at /tmp/sock renders
"/tmp/sock". -/
theorem sock_addr_display_forms :
    (∀ sa : sockaddr_in, InetAddr.toStr (.V4 sa)
        = (InetAddr.ip (.V4 sa)).fmtStr ++ ":" ++ toString (InetAddr.port (.V4 sa)))
  ∧ (∀ sa : sockaddr_in6, InetAddr.toStr (.V6 sa)
        = "[" ++ (InetAddr.ip (.V6 sa)).fmtStr ++ "]:"
            ++ toString (InetAddr.port (.V6 sa)))
  ∧ SockAddr.toStr (.Inet (InetAddr.new (.V4 1 2 3 4) 80)) = "1.2.3.4:80"
  ∧ SockAddr.toStr (.Inet (InetAddr.new (.V6 0 0 0 0 0 0 0 1) 443)) = "[::1]:443"
  ∧ (UnixAddr.new [47, 116, 109, 112, 47, 115, 111, 99, 107]).map
      (fun u => SockAddr.toStr (.Unix u)) = .ok "/tmp/sock" :=
  ⟨fun sa => rfl, fun sa => rfl, by decide, by decide, by rfl⟩

/-! ## C8 -/

/-- C8: `ip_mreq::new` fails with the invalid-argument error for a non-IPv4
group and for a present IPv6 interface, defaults an absent interface to
`INADDR_ANY`, and on success copies the network-byte-order `in_addr` values
of group and interface into the record unchanged. -/
theorem ip_mreq_new_family_rules :
    ∀ (g i : sockaddr_in) (s : sockaddr_in6) (iface : Option InetAddr),
      ip_mreq.new (.V4 g) (some (.V4 i))
          = .ok { imr_multiaddr := g.sin_addr, imr_interface := i.sin_addr }
    ∧ ip_mreq.new (.V4 g) none
          = .ok { imr_multiaddr := g.sin_addr,
                  imr_interface := { s_addr := INADDR_ANY } }
    ∧ ip_mreq.new (.V4 g) (some (.V6 s)) = .error NixError.invalid_argument
    ∧ ip_mreq.new (.V6 s) iface = .error NixError.invalid_argument := by
  intro g i s iface
  exact ⟨rfl, rfl, rfl, rfl⟩
